import Mathlib

/-!
Shallow embedding of the agent-execution and hook-orchestration engine of
verifier-ts, together with proofs about the claims of its specification.

The embedding models the second (current) revision of each concatenated
source file, which is the revision the specification describes:
- HookManager (executeHooks, matcherApplies, runHookCommand finalization),
- AgentRunner.runAgent (session, SessionStart/Stop hooks, budget gate,
  metric recording, try/catch/finally control flow),
- ToolRunner.runTool (tool_start/tool_end/tool_error transcript records,
  PreToolUse/PostToolUse dispatches),
- SessionManager.log (transcript appends, whose write failures throw),
- MetricsStore.getMetrics (trailing-window metric collection).

External, non-deterministic facilities are modelled as oracle parameters:
- run: the child-process execution primitive (stdout, stderr, exit code of
  one hook command),
- parse: JavaScript JSON.parse restricted to the fields the hook manager
  reads (a parse failure is none),
- logOk: whether the k-th transcript append of a run succeeds (an
  appendFileSync failure throws in the source, which the model propagates),
- agentExec / toolExec: the outcome of the opaque agent.execute or
  tool.execute call (normal result, or a thrown exception).

Effectful steps are reified into a trace of Effect values so that theorems
can speak about which hook events were dispatched, which transcript records
were appended, and which metrics were recorded, and in what order.
-/

namespace VerifierTS

/-- Outcome of a JavaScript async call as observed by its caller: the promise
resolves with a value, or rejects (an exception propagated). -/
inductive JsOutcome (α : Type) where
  | ok (value : α)
  | thrown
  deriving Repr, DecidableEq

/-- The fields of a parsed hook stdout JSON document that HookManager reads:
the continue flag, the decision string, and
hookSpecificOutput.additionalContext. Any other JSON content is irrelevant
to the dispatcher. A missing field is none. -/
structure HookJson where
  jContinue : Option Bool
  decision : Option String
  addCtx : Option String
  deriving Repr, DecidableEq

/-- Result of running one hook command, as resolved by runHookCommand:
captured stdout, captured stderr, and the exit code (null possible). -/
structure ProcResult where
  stdout : String
  stderr : String
  code : Option Int
  deriving Repr, DecidableEq

/-- One command entry of a hook rule: from the configuration schema,
an object with a command string and an optional timeout (milliseconds). -/
structure HookCommandCfg where
  command : String
  timeout : Option Nat
  deriving Repr, DecidableEq

/-- One hook rule: an optional matcher pattern and a list of commands. -/
structure HookMatcherCfg where
  matcher : Option String
  hooks : List HookCommandCfg
  deriving Repr, DecidableEq

/-- The per-event rule lists of one namespace (HookSetSchema): each of the
eight lifecycle events optionally carries a list of rules. -/
structure HookSet where
  preToolUse : Option (List HookMatcherCfg)
  postToolUse : Option (List HookMatcherCfg)
  eventNotify : Option (List HookMatcherCfg)
  userPromptSubmit : Option (List HookMatcherCfg)
  stopEvent : Option (List HookMatcherCfg)
  subagentStop : Option (List HookMatcherCfg)
  preCompact : Option (List HookMatcherCfg)
  sessionStart : Option (List HookMatcherCfg)
  deriving Repr, DecidableEq

/-- A HookSet with no rules configured for any event. -/
def emptyHookSet : HookSet :=
  ⟨none, none, none, none, none, none, none, none⟩

/-- The hooks section of the configuration: the generic namespace plus the
three provider namespaces, each optional. -/
structure HooksCfg where
  generic : Option HookSet
  claude : Option HookSet
  gemini : Option HookSet
  openai : Option HookSet
  deriving Repr, DecidableEq

/-- The budgets section of the configuration. Only daily_tokens is consulted
by the components modelled here; the other budget fields are omitted. -/
structure Budgets where
  daily_tokens : Option Nat
  deriving Repr, DecidableEq

/-- The configuration, restricted to the sections the agent runner and hook
manager consult (models, providers and thresholds are never read by them).
Both sections are optional, mirroring the optional-chaining reads in the
source. -/
structure Config where
  budgets : Option Budgets
  hooks : Option HooksCfg
  deriving Repr, DecidableEq

/-- The aggregated verdict of one hook dispatch: the shouldBlock flag and the
optional additionalContext string (absent exactly when the source object
literal omits the field). -/
structure HookVerdict where
  shouldBlock : Bool
  additionalContext : Option String
  deriving Repr, DecidableEq

/-- Indexing a HookSet by event-name string, as the source does with a
computed member access; an unknown event name reads undefined. -/
def eventRules (hs : HookSet) (eventName : String) : Option (List HookMatcherCfg) :=
  if eventName = "PreToolUse" then hs.preToolUse
  else if eventName = "PostToolUse" then hs.postToolUse
  else if eventName = "Notification" then hs.eventNotify
  else if eventName = "UserPromptSubmit" then hs.userPromptSubmit
  else if eventName = "Stop" then hs.stopEvent
  else if eventName = "SubagentStop" then hs.subagentStop
  else if eventName = "PreCompact" then hs.preCompact
  else if eventName = "SessionStart" then hs.sessionStart
  else none

/-- Indexing the hooks section by namespace string, as the source does with
a computed member access on config.hooks. -/
def nsHookSet (cfg : Config) (ns : String) : Option HookSet :=
  match cfg.hooks with
  | none => none
  | some h =>
    if ns = "generic" then h.generic
    else if ns = "claude" then h.claude
    else if ns = "gemini" then h.gemini
    else if ns = "openai" then h.openai
    else none

/-- The rule list configured for one namespace and event, defaulting to the
empty list (the source's genericHooks or [] and providerHooks or []). -/
def rulesFor (cfg : Config) (ns eventName : String) : List HookMatcherCfg :=
  ((nsHookSet cfg ns).bind (fun hs => eventRules hs eventName)).getD []

/-- Glob matching with bounded fuel: the pattern character star matches any
character sequence, every other pattern character matches itself, and the
match is anchored at both ends. This is the language of the regular
expression that matcherApplies builds, where every regex special except
star is escaped and star is rewritten to dot-star. -/
def globMatchAux : Nat → List Char → List Char → Bool
  | 0, _, _ => false
  | Nat.succ fuel, p, s =>
    match p, s with
    | [], [] => true
    | [], _ :: _ => false
    | c :: ps, [] => c == '*' && globMatchAux fuel ps []
    | c :: ps, a :: as =>
      if c == '*' then globMatchAux fuel ps (a :: as) || globMatchAux fuel (c :: ps) as
      else c == a && globMatchAux fuel ps as

/-- Anchored glob matching of a tool name against a matcher pattern. The
fuel bound (pattern length + string length + 1) dominates the recursion
depth, so the fuel never runs out. -/
def globMatch (pat str : String) : Bool :=
  globMatchAux (pat.data.length + str.data.length + 1) pat.data str.data

/-- JavaScript String.prototype.trim: strip leading and trailing whitespace
(modelled on the character list of the string). -/
def jsTrim (s : String) : String :=
  ⟨((s.data.dropWhile Char.isWhitespace).reverse.dropWhile Char.isWhitespace).reverse⟩

/-- HookManager.matcherApplies (current revision): the matcher is first
trimmed; an absent matcher, or one whose trimmed form is empty or the
literal wildcard, applies always (even with no tool name); any other
matcher requires a tool name and is compiled to an anchored pattern with
star expanding to any sequence and all other characters escaped, i.e. glob
matching. The regex-construction catch branch is unreachable because the
escaped pattern is always a valid regular expression. -/
def matcherApplies (matcher : Option String) (toolName : Option String) : Bool :=
  let m := jsTrim (matcher.getD "")
  if m = "" ∨ m = "*" then true
  else
    match toolName with
    | none => false
    | some tn => globMatch m tn

/-- The built-in reminder string injected for the claude namespace. -/
def claudeReminder : String :=
  "<system-reminder>Stay focused on the current goal and avoid drifting from the task.</system-reminder>"

/-- Interpretation of one hook invocation result, updating the accumulated
(shouldBlock, additionalContext) pair exactly as the loop body of
executeHooks does: a non-empty stdout is parsed as JSON; on success a
continue=false or decision="block" field sets shouldBlock and a non-empty
hookSpecificOutput.additionalContext is appended; on parse failure the raw
stdout is appended only for the two prompt-shaping events; finally an exit
code of exactly 2 sets shouldBlock. -/
def stepHook (parse : String → Option HookJson) (eventName : String)
    (st : Bool × String) (r : ProcResult) : Bool × String :=
  let sb := st.1
  let ac := st.2
  let st1 : Bool × String :=
    if r.stdout ≠ "" then
      match parse r.stdout with
      | some j =>
        let sb := if j.jContinue = some false then true else sb
        let sb := if j.decision = some "block" then true else sb
        let ac :=
          match j.addCtx with
          | some c => if c ≠ "" then ac ++ c else ac
          | none => ac
        (sb, ac)
      | none =>
        if eventName = "UserPromptSubmit" ∨ eventName = "SessionStart" then (sb, ac ++ r.stdout)
        else (sb, ac)
    else (sb, ac)
  (st1.1 || (r.code == some 2), st1.2)

/-- HookManager.executeHooks (current revision): resolve generic rules then
provider rules for the event; with no rules at all return a no-op verdict
(which for the claude namespace carries the built-in reminder as context);
otherwise fold every command of every rule whose matcher applies, in
configuration order, through stepHook, starting from shouldBlock=false and
an initial context that is the reminder plus newline for claude and empty
otherwise. -/
def executeHooks (run : String → Option Nat → ProcResult)
    (parse : String → Option HookJson) (cfg : Config)
    (eventName provider : String) (toolName : Option String) : HookVerdict :=
  let allHooks := rulesFor cfg "generic" eventName ++ rulesFor cfg provider eventName
  if allHooks.length = 0 then
    { shouldBlock := false,
      additionalContext := if provider = "claude" then some claudeReminder else none }
  else
    let init : Bool × String :=
      (false, if provider = "claude" then claudeReminder ++ "\n" else "")
    let final := allHooks.foldl
      (fun st hc =>
        if matcherApplies hc.matcher toolName then
          hc.hooks.foldl (fun st h => stepHook parse eventName st (run h.command h.timeout)) st
        else st)
      init
    { shouldBlock := final.1, additionalContext := some final.2 }

/-- The fixed default hook timeout of runHookCommand: 10 seconds. -/
def DEFAULT_HOOK_TIMEOUT_MS : Nat := 10000

/-- The timeout actually armed by runHookCommand for one command: the rule's
configured value when present, the fixed default otherwise, floored at one
millisecond. -/
def effectiveTimeout (timeout : Option Nat) : Nat :=
  max 1 (timeout.getD DEFAULT_HOOK_TIMEOUT_MS)

/-- The finalize step of runHookCommand: when the kill timer fired, the
promise resolves with the stdout captured so far, the captured stderr with
the timeout notice appended (after a newline when stderr is non-empty), and
the reserved exit code 124; otherwise it resolves with the captured streams
and the process exit code unchanged. -/
def finalizeHookResult (timedOut : Bool) (stdout stderr : String)
    (exitCode : Option Int) : ProcResult :=
  if timedOut then
    { stdout := stdout,
      stderr := (if stderr ≠ "" then stderr ++ "\n" else "") ++ "Hook timed out",
      code := some 124 }
  else
    { stdout := stdout, stderr := stderr, code := exitCode }

/-- Whether a hook result's stdout carries an explicit JSON block decision:
non-empty, parses as JSON, and has continue=false or decision="block". -/
def stdoutBlocks (parse : String → Option HookJson) (s : String) : Bool :=
  if s ≠ "" then
    match parse s with
    | some j => (j.jContinue = some false) || (j.decision = some "block")
    | none => false
  else false

/-- The combined block signal of one hook invocation result: a blocking JSON
stdout, or the exit-code-2 convention. -/
def blockSignal (parse : String → Option HookJson) (r : ProcResult) : Bool :=
  stdoutBlocks parse r.stdout || (r.code == some 2)

/-- The context contribution of one hook invocation result: the JSON
additional-context field when stdout parses, the raw stdout for the two
prompt-shaping events when it does not, and empty otherwise. -/
def contribution (parse : String → Option HookJson) (eventName : String)
    (r : ProcResult) : String :=
  if r.stdout ≠ "" then
    match parse r.stdout with
    | some j => (j.addCtx).getD ""
    | none =>
      if eventName = "UserPromptSubmit" ∨ eventName = "SessionStart" then r.stdout
      else ""
  else ""

/-- Concatenation of a list of strings, in order. -/
def catList : List String → String
  | [] => ""
  | s :: rest => s ++ catList rest

theorem str_append_empty : ∀ (s : String), s ++ "" = s
  | ⟨l⟩ => congrArg String.mk (List.append_nil l)

theorem str_append_assoc : ∀ (a b c : String), (a ++ b) ++ c = a ++ (b ++ c)
  | ⟨a⟩, ⟨b⟩, ⟨c⟩ => congrArg String.mk (List.append_assoc a b c)

theorem str_append_eq_empty : ∀ {a b : String}, a ++ b = "" → b = "" := by
  intro a b h
  cases a with
  | mk da =>
    cases b with
    | mk db =>
      have hd : da ++ db = [] := congrArg String.data h
      rcases List.append_eq_nil.mp hd with ⟨_, h2⟩
      exact congrArg String.mk h2

/-- One stepHook application decomposes as: or the block signal onto the
flag, append the contribution onto the context. -/
theorem stepHook_eq (parse : String → Option HookJson) (eventName : String)
    (st : Bool × String) (r : ProcResult) :
    stepHook parse eventName st r
      = (st.1 || blockSignal parse r, st.2 ++ contribution parse eventName r) := by
  obtain ⟨b, s⟩ := st
  unfold stepHook blockSignal stdoutBlocks contribution
  by_cases hout : r.stdout = ""
  · simp [hout, str_append_empty]
  · simp only [hout, if_true, ne_eq, not_false_iff, ite_true, if_neg, not_true]
    cases hp : parse r.stdout with
    | none =>
      by_cases hev : eventName = "UserPromptSubmit" ∨ eventName = "SessionStart"
      · simp [hp, hev, hout, Bool.or_assoc]
      · simp [hp, hev, hout, str_append_empty, Bool.or_assoc]
    | some j =>
      simp only [hp]
      by_cases hc : j.jContinue = some false
      · by_cases hd : j.decision = some "block"
        · cases hac : j.addCtx with
          | none => simp [hc, hd, hac, hout, str_append_empty]
          | some c =>
            by_cases hce : c = ""
            · simp [hc, hd, hac, hce, hout, str_append_empty]
            · simp [hc, hd, hac, hce, hout]
        · cases hac : j.addCtx with
          | none => simp [hc, hd, hac, hout, str_append_empty]
          | some c =>
            by_cases hce : c = ""
            · simp [hc, hd, hac, hce, hout, str_append_empty]
            · simp [hc, hd, hac, hce, hout]
      · by_cases hd : j.decision = some "block"
        · cases hac : j.addCtx with
          | none => simp [hc, hd, hac, hout, str_append_empty]
          | some c =>
            by_cases hce : c = ""
            · simp [hc, hd, hac, hce, hout, str_append_empty]
            · simp [hc, hd, hac, hce, hout]
        · cases hac : j.addCtx with
          | none => simp [hc, hd, hac, hout, str_append_empty, Bool.or_assoc]
          | some c =>
            by_cases hce : c = ""
            · simp [hc, hd, hac, hce, hout, str_append_empty, Bool.or_assoc]
            · simp [hc, hd, hac, hce, hout, Bool.or_assoc]

/-- Folding stepHook over a command list from any accumulator yields the
or of all block signals and the in-order concatenation of all
contributions. -/
theorem foldl_stepHook (parse : String → Option HookJson) (eventName : String)
    (run : String → Option Nat → ProcResult) :
    ∀ (l : List HookCommandCfg) (b : Bool) (s : String),
      l.foldl (fun st h => stepHook parse eventName st (run h.command h.timeout)) (b, s)
        = (b || l.any (fun h => blockSignal parse (run h.command h.timeout)),
           s ++ catList (l.map (fun h => contribution parse eventName (run h.command h.timeout)))) := by
  intro l
  induction l with
  | nil => intro b s; simp [catList, str_append_empty]
  | cons h t ih =>
    intro b s
    rw [List.foldl_cons, stepHook_eq, ih]
    simp [List.any_cons, List.map_cons, catList, Bool.or_assoc, str_append_assoc]

/-- The flattened list of commands of every rule whose matcher applies, in
configuration order (generic rules before namespace rules, declared order
within each list): exactly the hooks one dispatch executes. -/
def matchingHooks (cfg : Config) (eventName provider : String)
    (toolName : Option String) : List HookCommandCfg :=
  ((rulesFor cfg "generic" eventName ++ rulesFor cfg provider eventName).filter
    (fun hc => matcherApplies hc.matcher toolName)).flatMap (fun hc => hc.hooks)

/-- The built-in default context prefix of one dispatch with at least one
configured rule: the claude reminder plus newline for the claude namespace,
empty otherwise. -/
def nsContextPrefix (provider : String) : String :=
  if provider = "claude" then claudeReminder ++ "\n" else ""

/-- The nested rule/command loops of executeHooks coincide with a single
fold over the flattened matching-command list. -/
theorem foldl_rules_eq_bind (parse : String → Option HookJson) (eventName : String)
    (run : String → Option Nat → ProcResult) (toolName : Option String) :
    ∀ (l : List HookMatcherCfg) (st : Bool × String),
      l.foldl
        (fun st hc =>
          if matcherApplies hc.matcher toolName then
            hc.hooks.foldl (fun st h => stepHook parse eventName st (run h.command h.timeout)) st
          else st) st
        = ((l.filter (fun hc => matcherApplies hc.matcher toolName)).flatMap (fun hc => hc.hooks)).foldl
            (fun st h => stepHook parse eventName st (run h.command h.timeout)) st := by
  intro l
  induction l with
  | nil => intro st; rfl
  | cons hc t ih =>
    intro st
    by_cases hm : matcherApplies hc.matcher toolName
    · simp [List.filter_cons, hm, List.flatMap_cons, List.foldl_append, ih]
    · simp [List.filter_cons, hm, ih]

/-- Unfolding of executeHooks with its local bindings inlined. -/
theorem executeHooks_unfold (run : String → Option Nat → ProcResult)
    (parse : String → Option HookJson) (cfg : Config)
    (eventName provider : String) (toolName : Option String) :
    executeHooks run parse cfg eventName provider toolName
      = if (rulesFor cfg "generic" eventName ++ rulesFor cfg provider eventName).length = 0 then
          { shouldBlock := false,
            additionalContext := if provider = "claude" then some claudeReminder else none }
        else
          let final := (rulesFor cfg "generic" eventName ++ rulesFor cfg provider eventName).foldl
            (fun st hc =>
              if matcherApplies hc.matcher toolName then
                hc.hooks.foldl (fun st h => stepHook parse eventName st (run h.command h.timeout)) st
              else st)
            (false, if provider = "claude" then claudeReminder ++ "\n" else "")
          { shouldBlock := final.1, additionalContext := some final.2 } := rfl

/-- Characterization of executeHooks when at least one rule is configured
for the event: the verdict's flag is the disjunction of the block signals of
the matching hooks, and its context is the namespace prefix followed by the
in-order concatenation of their contributions. -/
theorem executeHooks_eq_fold (run : String → Option Nat → ProcResult)
    (parse : String → Option HookJson) (cfg : Config)
    (eventName provider : String) (toolName : Option String)
    (hne : rulesFor cfg "generic" eventName ++ rulesFor cfg provider eventName ≠ []) :
    executeHooks run parse cfg eventName provider toolName
      = { shouldBlock :=
            (matchingHooks cfg eventName provider toolName).any
              (fun h => blockSignal parse (run h.command h.timeout)),
          additionalContext :=
            some (nsContextPrefix provider ++
              catList ((matchingHooks cfg eventName provider toolName).map
                (fun h => contribution parse eventName (run h.command h.timeout)))) } := by
  rw [executeHooks_unfold, if_neg (by simpa [List.length_eq_zero] using hne)]
  simp only [foldl_rules_eq_bind, foldl_stepHook]
  simp [matchingHooks, nsContextPrefix]

/-- Characterization of executeHooks when no rule is configured for the
event in either namespace: the no-op verdict, whose context is the bare
reminder for claude and absent otherwise. -/
theorem executeHooks_empty (run : String → Option Nat → ProcResult)
    (parse : String → Option HookJson) (cfg : Config)
    (eventName provider : String) (toolName : Option String)
    (he : rulesFor cfg "generic" eventName ++ rulesFor cfg provider eventName = []) :
    executeHooks run parse cfg eventName provider toolName
      = { shouldBlock := false,
          additionalContext := if provider = "claude" then some claudeReminder else none } := by
  rw [executeHooks_unfold, if_pos (by simp [he])]

/-- The final shouldBlock flag is, unconditionally, the disjunction of the
matching hooks' block signals. -/
theorem executeHooks_shouldBlock (run : String → Option Nat → ProcResult)
    (parse : String → Option HookJson) (cfg : Config)
    (eventName provider : String) (toolName : Option String) :
    (executeHooks run parse cfg eventName provider toolName).shouldBlock
      = (matchingHooks cfg eventName provider toolName).any
          (fun h => blockSignal parse (run h.command h.timeout)) := by
  by_cases hne : rulesFor cfg "generic" eventName ++ rulesFor cfg provider eventName = []
  · rw [executeHooks_empty run parse cfg eventName provider toolName hne]
    have hm : matchingHooks cfg eventName provider toolName = [] := by
      simp [matchingHooks, hne]
    simp [hm]
  · rw [executeHooks_eq_fold run parse cfg eventName provider toolName hne]

/-- An agent result as produced by execute or synthesized by the runner.
The fields the runner never reads (data, severity, score, artifacts) are
omitted; JavaScript numbers for token counts and cost are modelled as
naturals. An absent optional field is none. -/
structure AgentResult where
  agent_id : String
  status : String
  error : Option String
  tokens_used : Option Nat
  cost : Option Nat
  timestamp : String
  deriving Repr, DecidableEq

/-- A stored metric record (MetricsStore.Metric). -/
structure Metric where
  agent_id : String
  timestamp : String
  tokens_used : Nat
  cost : Nat
  result : String
  duration_ms : Nat
  deriving Repr, DecidableEq

/-- A tool result: the success flag and optional error text (the data
payload is opaque to the mediator and omitted). -/
structure ToolResult where
  success : Bool
  error : Option String
  deriving Repr, DecidableEq

/-- One transcript record, as appended by SessionManager.log. Payload fields
that never influence control flow (the full context object, tool inputs)
are omitted. -/
inductive LogEntry where
  | start (agent : String)
  | contextEntry (context : String)
  | result (r : AgentResult)
  | errorEntry (e : AgentResult)
  | stop
  | toolStart (tool : String)
  | toolEnd (tool : String) (r : ToolResult)
  | toolError (tool : String) (e : ToolResult)
  deriving Repr, DecidableEq

/-- One observable effect of a run, in order of occurrence: a transcript
record successfully appended, a hook dispatch for a lifecycle event (with
the tool response carried in the payload, when any), or a metric record
forwarded to the metrics store. -/
inductive Effect where
  | logged (e : LogEntry)
  | hookDispatch (eventName : String) (toolResponse : Option ToolResult)
  | metricRecorded (m : Metric)
  deriving Repr, DecidableEq

/-- Number of Stop-lifecycle hook dispatches in a trace. -/
def countStopDispatch (tr : List Effect) : Nat :=
  tr.countP (fun e =>
    match e with
    | Effect.hookDispatch ev _ => ev == "Stop"
    | _ => false)

/-- Number of PostToolUse hook dispatches in a trace. -/
def countPostDispatch (tr : List Effect) : Nat :=
  tr.countP (fun e =>
    match e with
    | Effect.hookDispatch ev _ => ev == "PostToolUse"
    | _ => false)

/-- Number of metric records forwarded to the metrics store in a trace. -/
def countMetricRecords (tr : List Effect) : Nat :=
  tr.countP (fun e =>
    match e with
    | Effect.metricRecorded _ => true
    | _ => false)

/-- JavaScript startsWith on the underlying character list. -/
def strStartsWith (s pre : String) : Bool :=
  pre.data.isPrefixOf s.data

/-- JavaScript endsWith on the underlying character list. -/
def strEndsWith (s suf : String) : Bool :=
  suf.data.isSuffixOf s.data

/-- Drop the last n characters of a string. -/
def strDropRight (s : String) (n : Nat) : String :=
  ⟨s.data.take (s.data.length - n)⟩

/-- AgentRunner.getProviderFromModel: derive the provider namespace from the
model identifier prefix. -/
def getProviderFromModel (model : String) : String :=
  if strStartsWith model "gpt-" then "openai"
  else if strStartsWith model "claude-" then "claude"
  else if strStartsWith model "gemini-" then "gemini"
  else "generic"

/-- The window width of MetricsStore.getMetrics in milliseconds for each
period (the period argument is one of the four literals). -/
def windowMillis (period : String) : Int :=
  if period = "hourly" then 3600000
  else if period = "daily" then 86400000
  else if period = "weekly" then 604800000
  else 2592000000

/-- MetricsStore.getMetrics: collect the metrics of every stored per-day
file whose date parses on or after the window start, keeping the records
whose own timestamp also parses on or after the window start. Date parsing
(the JavaScript Date constructor) is abstracted by the parseDate oracle,
nowMs is Date.now(), and files lists the metrics directory as pairs of file
name and parsed content. The source strips the .json suffix with a
first-occurrence replace, which coincides with suffix removal for the
date-named files the store itself writes. -/
def getMetrics (parseDate : String → Int) (nowMs : Int)
    (files : List (String × List Metric)) (period : String) : List Metric :=
  let start := nowMs - windowMillis period
  (files.filter (fun f => strEndsWith f.1 ".json" && decide (start ≤ parseDate (strDropRight f.1 5)))).flatMap
    (fun f => f.2.filter (fun m => decide (start ≤ parseDate m.timestamp)))

/-- The token sum the budget gate computes over the retrieved metrics. -/
def sumTokens (l : List Metric) : Nat :=
  l.foldl (fun s m => s + m.tokens_used) 0

/-- Number.MAX_SAFE_INTEGER, the ceiling used when no daily token budget is
configured. -/
def maxSafeInteger : Nat := 9007199254740991

/-- The configured daily token ceiling, defaulting to the unbounded
sentinel: config.budgets?.daily_tokens ?? Number.MAX_SAFE_INTEGER. -/
def dailyCeiling (cfg : Config) : Nat :=
  ((cfg.budgets).bind (fun b => b.daily_tokens)).getD maxSafeInteger

/-- A registered agent as the runner sees it: only the model identifier
influences the runner's control flow (tools are forwarded opaquely to the
tool runner). -/
structure AgentSpec where
  model : String
  deriving Repr, DecidableEq

/-- The environment of one runAgent call: the configuration, the registered
agents, the hook oracles, the metrics store contents, the per-append
transcript-write outcomes, and the outcome of the opaque agent execute
call. nowStr abstracts the ISO timestamps taken during the run and durMs
the measured duration. -/
structure RunEnv where
  cfg : Config
  agents : List (String × AgentSpec)
  run : String → Option Nat → ProcResult
  parse : String → Option HookJson
  storedFiles : List (String × List Metric)
  parseDate : String → Int
  nowMs : Int
  logOk : Nat → Bool
  agentExec : JsOutcome AgentResult
  nowStr : String
  durMs : Nat

/-- The result returned on budget exhaustion, with its fixed reason. -/
def skippedResult (id now : String) : AgentResult :=
  { agent_id := id, status := "skipped", error := some "Daily token budget exhausted",
    tokens_used := none, cost := none, timestamp := now }

/-- The generic failure result synthesized when execute throws. -/
def execFailedResult (id now : String) : AgentResult :=
  { agent_id := id, status := "failure", error := some "Agent execution failed",
    tokens_used := none, cost := none, timestamp := now }

/-- The catch block of runAgent: record a zero-usage failure metric, append
the error record (the k-th transcript write; a failure of that write throws
onward, out of the catch, into the finally), and complete with the generic
failure result. Returns the next append index, the extended trace, and the
pending completion. -/
def catchBlock (env : RunEnv) (id : String) (k : Nat) (tr : List Effect) :
    Nat × List Effect × JsOutcome AgentResult :=
  let errorResult := execFailedResult id env.nowStr
  let m : Metric := { agent_id := id, timestamp := env.nowStr, tokens_used := 0, cost := 0,
                      result := "failure", duration_ms := env.durMs }
  let tr := tr ++ [Effect.metricRecorded m]
  if env.logOk k then
    (k + 1, tr ++ [Effect.logged (LogEntry.errorEntry errorResult)], JsOutcome.ok errorResult)
  else
    (k + 1, tr, JsOutcome.thrown)

/-- The try block of runAgent: on a normal execute return, record the
result's usage as a metric and append the result record (a failure of that
write is an exception inside the try and lands in the catch block); on a
thrown execute, go to the catch block directly. -/
def tryBlock (env : RunEnv) (id : String) (k : Nat) (tr : List Effect) :
    Nat × List Effect × JsOutcome AgentResult :=
  match env.agentExec with
  | JsOutcome.thrown => catchBlock env id k tr
  | JsOutcome.ok result =>
    let m : Metric := { agent_id := id, timestamp := result.timestamp,
                        tokens_used := (result.tokens_used).getD 0,
                        cost := (result.cost).getD 0,
                        result := result.status, duration_ms := env.durMs }
    let tr := tr ++ [Effect.metricRecorded m]
    if env.logOk k then
      (k + 1, tr ++ [Effect.logged (LogEntry.result result)], JsOutcome.ok result)
    else
      catchBlock env id (k + 1) tr

/-- The finally block of runAgent: dispatch the Stop hooks, then append the
final stop record; a failure of that append throws and replaces whatever
completion was pending. -/
def finallyBlock (env : RunEnv) (k : Nat) (tr : List Effect)
    (pending : JsOutcome AgentResult) : List Effect × JsOutcome AgentResult :=
  let tr := tr ++ [Effect.hookDispatch "Stop" none]
  if env.logOk k then
    (tr ++ [Effect.logged LogEntry.stop], pending)
  else
    (tr, JsOutcome.thrown)

/-- runAgent from the budget gate onward: consult the daily metrics (the
store's own failures are swallowed, so the gate reads exactly getMetrics),
return the skipped result directly when the ceiling is reached - this
return precedes the try/finally, so no stop hooks and no metric follow -
and otherwise run the try/catch/finally. k is the index of the next
transcript append. -/
def afterStart (env : RunEnv) (id : String) (k : Nat) (tr : List Effect) :
    List Effect × JsOutcome AgentResult :=
  let todays := getMetrics env.parseDate env.nowMs env.storedFiles "daily"
  let used := sumTokens todays
  if dailyCeiling env.cfg ≤ used then
    (tr, JsOutcome.ok (skippedResult id env.nowStr))
  else
    let step := tryBlock env id k tr
    finallyBlock env step.1 step.2.1 step.2.2

/-- AgentRunner.runAgent (current revision): resolve the agent (an unknown
id returns a failure result with no session), open the session, append the
start record (append index 0; a write failure throws out of runAgent),
dispatch the SessionStart hooks, append a context record when the start
verdict carried a non-empty additional context (the merge into the run's
input context itself does not influence the modelled control flow, since
execute is an oracle), then proceed to the budget gate and the
try/catch/finally. -/
def runAgent (env : RunEnv) (id : String) : List Effect × JsOutcome AgentResult :=
  match env.agents.lookup id with
  | none =>
    ([], JsOutcome.ok { agent_id := id, status := "failure",
                        error := some ("Agent " ++ id ++ " not found"),
                        tokens_used := none, cost := none, timestamp := env.nowStr })
  | some agent =>
    let provider := getProviderFromModel agent.model
    if env.logOk 0 = false then ([], JsOutcome.thrown)
    else
      let ssv := executeHooks env.run env.parse env.cfg "SessionStart" provider none
      let tr := [Effect.logged (LogEntry.start id), Effect.hookDispatch "SessionStart" none]
      if (ssv.additionalContext).getD "" = "" then
        afterStart env id 1 tr
      else
        if env.logOk 1 = false then (tr, JsOutcome.thrown)
        else
          afterStart env id 2
            (tr ++ [Effect.logged (LogEntry.contextEntry ((ssv.additionalContext).getD ""))])

/-- Outcome of the opaque tool.execute call: a resolved tool result, or an
exception carrying its message. -/
inductive ToolExecOutcome where
  | ok (r : ToolResult)
  | thrown (message : String)
  deriving Repr, DecidableEq

/-- The environment of one runTool call: the registered tool names, the hook
configuration and oracles with the provider namespace of the run, the
outcome of the underlying tool call, the per-append transcript-write
outcomes, and the message of a transcript-write failure (the caught
error's message when an append inside the try block fails). -/
structure ToolEnv where
  cfg : Config
  provider : String
  tools : List String
  run : String → Option Nat → ProcResult
  parse : String → Option HookJson
  toolExec : ToolExecOutcome
  logOk : Nat → Bool
  fsErrMsg : String

/-- The catch block of runTool: build the failure result from the caught
message, append the tool_error record (a failure of that append throws out
of runTool), and return the failure result. k is the index of the
tool_error append. -/
def toolCatch (env : ToolEnv) (toolName msg : String) (k : Nat) (tr : List Effect) :
    List Effect × JsOutcome ToolResult :=
  let errorResult : ToolResult :=
    { success := false, error := some ("Error executing tool " ++ toolName ++ ": " ++ msg) }
  if env.logOk k then
    (tr ++ [Effect.logged (LogEntry.toolError toolName errorResult)], JsOutcome.ok errorResult)
  else
    (tr, JsOutcome.thrown)

/-- ToolRunner.runTool: an unregistered tool returns an immediate failure
with no transcript record and no hook dispatch; otherwise the tool_start
record is appended (append 0; a write failure throws), the PreToolUse hooks
are dispatched, and a blocking verdict returns the fixed blocked failure
without invoking the tool and without logging that failure. Otherwise the
tool runs: a resolved call appends the tool_end record (append 1; a write
failure there is caught like a tool exception) and dispatches the
PostToolUse hooks with the tool response in the payload; a thrown call is
converted by the catch block, which skips the PostToolUse dispatch. -/
def runTool (env : ToolEnv) (toolName : String) : List Effect × JsOutcome ToolResult :=
  if env.tools.contains toolName = false then
    ([], JsOutcome.ok { success := false, error := some ("Tool " ++ toolName ++ " not found") })
  else if env.logOk 0 = false then
    ([], JsOutcome.thrown)
  else
    let tr := [Effect.logged (LogEntry.toolStart toolName),
               Effect.hookDispatch "PreToolUse" none]
    let pre := executeHooks env.run env.parse env.cfg "PreToolUse" env.provider (some toolName)
    if pre.shouldBlock then
      (tr, JsOutcome.ok { success := false,
                          error := some "Tool execution blocked by PreToolUse hook" })
    else
      match env.toolExec with
      | ToolExecOutcome.ok result =>
        if env.logOk 1 then
          (tr ++ [Effect.logged (LogEntry.toolEnd toolName result),
                  Effect.hookDispatch "PostToolUse" (some result)],
           JsOutcome.ok result)
        else
          toolCatch env toolName env.fsErrMsg 2 tr
      | ToolExecOutcome.thrown msg => toolCatch env toolName msg 1 tr

/-- Matcher semantics as the claim states them (claim C6 wording): an
absent, empty or wildcard matcher matches every invocation including an
absent tool name; any other matcher matches exactly the anchored glob
language of the pattern (star expands to any sequence, every other
character is literal) and never matches an absent tool name. -/
def matcherSpecClaim (matcher : Option String) (toolName : Option String) : Bool :=
  match matcher with
  | none => true
  | some m =>
    if m = "" ∨ m = "*" then true
    else
      match toolName with
      | none => false
      | some tn => globMatch m tn

/-- Claim C5: the verdict of one dispatch has shouldBlock = true whenever
some matching hook's process exits with code exactly 2 (even with empty
stdout), or some matching hook's stdout parses as JSON with continue =
false or decision = "block" (even with exit code 0); each signal forces the
block independently. -/
theorem block_signals_force_shouldBlock (run : String → Option Nat → ProcResult)
    (parse : String → Option HookJson) (cfg : Config)
    (eventName provider : String) (toolName : Option String) (hk : HookCommandCfg)
    (hmem : hk ∈ matchingHooks cfg eventName provider toolName)
    (hsig : (run hk.command hk.timeout).code = some 2
      ∨ ((run hk.command hk.timeout).stdout ≠ "" ∧
          ∃ j, parse (run hk.command hk.timeout).stdout = some j ∧
            (j.jContinue = some false ∨ j.decision = some "block"))) :
    (executeHooks run parse cfg eventName provider toolName).shouldBlock = true := by
  rw [executeHooks_shouldBlock]
  apply List.any_eq_true.mpr
  refine ⟨hk, hmem, ?_⟩
  rcases hsig with h2 | ⟨hne, j, hj, hflag⟩
  · simp [blockSignal, h2]
  · rcases hflag with hc | hd
    · simp [blockSignal, stdoutBlocks, hne, hj, hc]
    · simp [blockSignal, stdoutBlocks, hne, hj, hd]

/-- A configuration with one generic PreToolUse rule carrying one hook
command and no matcher. -/
def cfgW5 : Config :=
  { budgets := none,
    hooks := some
      { generic := some { emptyHookSet with
          preToolUse := some [{ matcher := none, hooks := [{ command := "h1", timeout := none }] }] },
        claude := none, gemini := none, openai := none } }

/-- A process oracle whose every hook exits with code 2 and empty stdout. -/
def runW5 : String → Option Nat → ProcResult :=
  fun _ _ => { stdout := "", stderr := "", code := some 2 }

/-- A parse oracle under which no stdout is valid JSON. -/
def parseW5 : String → Option HookJson :=
  fun _ => none

/-- Witness for claim C5 at a concrete configuration: one matching hook
exiting with code 2 and empty stdout forces a blocking verdict. -/
theorem block_signals_force_shouldBlock_w :
    (executeHooks runW5 parseW5 cfgW5 "PreToolUse" "generic" (some "ReadFile")).shouldBlock = true :=
  block_signals_force_shouldBlock runW5 parseW5 cfgW5 "PreToolUse" "generic" (some "ReadFile")
    { command := "h1", timeout := none } (by decide) (Or.inl rfl)

/-- Counterexample to claim C6 as stated: the source trims the matcher
before interpreting it, so the matcher consisting of a space followed by
Read and a star matches the tool name ReadFile, while the claimed anchored
pattern (every non-star character literal, hence requiring a leading
space) does not. -/
theorem matcher_trim_cex :
    matcherApplies (some " Read*") (some "ReadFile") = true ∧
    matcherSpecClaim (some " Read*") (some "ReadFile") = false := by decide

/-- Claim C6 (amended): matcherApplies behaves exactly as the claimed
matcher semantics applied to the trimmed matcher text; in particular the
stated examples hold: wildcard and empty matchers match everything
including an absent tool name, a Read-star matcher matches ReadFile but
not WriteFile, and a non-wildcard matcher never matches an absent tool
name. -/
theorem matcher_semantics_trimmed :
    (∀ (m : Option String) (t : Option String),
      matcherApplies m t = matcherSpecClaim (some (jsTrim (m.getD ""))) t) ∧
    matcherApplies (some "*") none = true ∧
    matcherApplies (some "") none = true ∧
    matcherApplies none none = true ∧
    matcherApplies (some "Read*") (some "ReadFile") = true ∧
    matcherApplies (some "Read*") (some "WriteFile") = false ∧
    matcherApplies (some "Read*") none = false := by
  refine ⟨?_, by decide, by decide, by decide, by decide, by decide, by decide⟩
  intro m t
  rfl

/-- Claim C7: a timed-out hook yields the synthesized result with the
reserved exit code 124 and the timeout notice appended to the captured
stderr; the default timeout is ten seconds when the rule sets none, the
rule's own value (at least one millisecond) otherwise; and interpreting the
timeout result never sets shouldBlock by itself - the flag is raised only
when the stdout captured before the kill already carried a blocking JSON
decision. -/
theorem hook_timeout_result_shape :
    effectiveTimeout none = DEFAULT_HOOK_TIMEOUT_MS ∧
    (∀ t : Nat, 1 ≤ t → effectiveTimeout (some t) = t) ∧
    (∀ (out err : String) (c : Option Int),
      (finalizeHookResult true out err c).code = some 124 ∧
      (finalizeHookResult true out err c).stderr
        = (if err ≠ "" then err ++ "\n" else "") ++ "Hook timed out" ∧
      ∀ (parse : String → Option HookJson) (eventName : String) (st : Bool × String),
        (stepHook parse eventName st (finalizeHookResult true out err c)).1
          = (st.1 || stdoutBlocks parse out)) := by
  refine ⟨rfl, ?_, ?_⟩
  · intro t ht
    simp [effectiveTimeout, DEFAULT_HOOK_TIMEOUT_MS, Nat.max_eq_right ht]
  · intro out err c
    refine ⟨rfl, rfl, ?_⟩
    intro parse eventName st
    rw [stepHook_eq]
    simp [blockSignal, finalizeHookResult]

/-- Witness for claim C7 at concrete inputs: a 5-second rule timeout is
used as configured; a timed-out hook with stderr text oops gets exit code
124; and with unparseable (empty) stdout the timeout result leaves the
blocking flag untouched. -/
theorem hook_timeout_result_shape_w :
    effectiveTimeout (some 5000) = 5000 ∧
    (finalizeHookResult true "" "oops" none).code = some 124 ∧
    (stepHook parseW5 "PreToolUse" (false, "") (finalizeHookResult true "" "oops" none)).1
      = (false || stdoutBlocks parseW5 "") :=
  ⟨hook_timeout_result_shape.2.1 5000 (by decide),
   (hook_timeout_result_shape.2.2 "" "oops" none).1,
   (hook_timeout_result_shape.2.2 "" "oops" none).2.2 parseW5 "PreToolUse" (false, "")⟩

/-- Claim C8 (amended): with at least one configured rule for the event,
the dispatch folds every command of every matching rule, in configuration
order (generic rules first, declared order within each list), into the
verdict: shouldBlock is the disjunction of all their block signals (so a
block raised by any prefix of the execution order survives to the final
verdict and later hooks still contribute), and additionalContext is the
namespace's built-in default prefix (the claude reminder plus newline for
the claude namespace, empty otherwise) followed by the concatenation of the
matching hooks' contributions in execution order. -/
theorem all_hooks_run_verdict_fold (run : String → Option Nat → ProcResult)
    (parse : String → Option HookJson) (cfg : Config)
    (eventName provider : String) (toolName : Option String)
    (hne : rulesFor cfg "generic" eventName ++ rulesFor cfg provider eventName ≠ []) :
    (executeHooks run parse cfg eventName provider toolName
      = { shouldBlock :=
            (matchingHooks cfg eventName provider toolName).any
              (fun h => blockSignal parse (run h.command h.timeout)),
          additionalContext :=
            some (nsContextPrefix provider ++
              catList ((matchingHooks cfg eventName provider toolName).map
                (fun h => contribution parse eventName (run h.command h.timeout)))) })
    ∧ ∀ (pre post : List HookCommandCfg),
        matchingHooks cfg eventName provider toolName = pre ++ post →
        pre.any (fun h => blockSignal parse (run h.command h.timeout)) = true →
        (executeHooks run parse cfg eventName provider toolName).shouldBlock = true := by
  refine ⟨executeHooks_eq_fold run parse cfg eventName provider toolName hne, ?_⟩
  intro pre post hsplit hpre
  rw [executeHooks_shouldBlock, hsplit, List.any_append, hpre, Bool.true_or]

/-- Witness for claim C8 (amended) at a concrete configuration: the single
matching code-2 hook makes the folded verdict blocking with an empty
(prefix-free) context for the generic namespace. -/
theorem all_hooks_run_verdict_fold_w :
    executeHooks runW5 parseW5 cfgW5 "PreToolUse" "generic" (some "T")
      = { shouldBlock := true, additionalContext := some "" } := by
  rw [(all_hooks_run_verdict_fold runW5 parseW5 cfgW5 "PreToolUse" "generic" (some "T")
    (by decide)).1]
  decide

/-- A configuration with a single claude-namespace PreToolUse rule. -/
def cfgC8 : Config :=
  { budgets := none,
    hooks := some
      { generic := none,
        claude := some { emptyHookSet with
          preToolUse := some [{ matcher := none, hooks := [{ command := "c1", timeout := none }] }] },
        gemini := none, openai := none } }

/-- A process oracle whose every hook prints the tag ctx and exits 0. -/
def runC8 : String → Option Nat → ProcResult :=
  fun _ _ => { stdout := "ctx", stderr := "", code := some 0 }

/-- A parse oracle mapping the tag ctx to a JSON document whose
hookSpecificOutput.additionalContext is X. -/
def parseC8 : String → Option HookJson :=
  fun s => if s = "ctx" then some { jContinue := none, decision := none, addCtx := some "X" } else none

/-- Counterexample to claim C8 as stated: for the claude namespace the
verdict's additionalContext is not the bare concatenation of the hooks'
contributions (which is X for this dispatch) - the built-in claude reminder
and a newline precede it. -/
theorem claude_prefix_context_cex :
    (executeHooks runC8 parseC8 cfgC8 "PreToolUse" "claude" (some "T")).additionalContext
      = some (claudeReminder ++ "\n" ++ "X") ∧
    (matchingHooks cfgC8 "PreToolUse" "claude" (some "T")).map
        (fun h => contribution parseC8 "PreToolUse" (runC8 h.command h.timeout)) = ["X"] ∧
    (executeHooks runC8 parseC8 cfgC8 "PreToolUse" "claude" (some "T")).additionalContext
      ≠ some "X" := by decide

/-- Claim C9 (amended): a dispatch with zero matching hooks and a namespace
without a built-in default returns a non-blocking verdict, but the
additional-context field is absent (not the empty string) when no rule at
all is configured for the event, and is the empty string when rules are
configured but none matches. -/
theorem no_matching_hooks_verdict (run : String → Option Nat → ProcResult)
    (parse : String → Option HookJson) (cfg : Config)
    (eventName provider : String) (toolName : Option String)
    (hprov : provider ≠ "claude") :
    (rulesFor cfg "generic" eventName ++ rulesFor cfg provider eventName = [] →
      executeHooks run parse cfg eventName provider toolName
        = { shouldBlock := false, additionalContext := none }) ∧
    (rulesFor cfg "generic" eventName ++ rulesFor cfg provider eventName ≠ [] →
      matchingHooks cfg eventName provider toolName = [] →
      executeHooks run parse cfg eventName provider toolName
        = { shouldBlock := false, additionalContext := some "" }) := by
  constructor
  · intro he
    rw [executeHooks_empty run parse cfg eventName provider toolName he]
    simp [hprov]
  · intro hne hm
    rw [executeHooks_eq_fold run parse cfg eventName provider toolName hne, hm]
    simp [nsContextPrefix, hprov, catList]

/-- The empty configuration: no hooks section at all. -/
def cfgEmptyW : Config := { budgets := none, hooks := none }

/-- A configuration whose single generic PreToolUse rule has a matcher that
does not match the dispatched tool name. -/
def cfgNoMatchW : Config :=
  { budgets := none,
    hooks := some
      { generic := some { emptyHookSet with
          preToolUse := some [{ matcher := some "Zed*", hooks := [{ command := "g", timeout := none }] }] },
        claude := none, gemini := none, openai := none } }

/-- Witness for claim C9 (amended) at concrete configurations: both the
no-rules case (absent context) and the rules-but-no-match case (empty
string context). -/
theorem no_matching_hooks_verdict_w :
    executeHooks runW5 parseW5 cfgEmptyW "PreToolUse" "generic" none
      = { shouldBlock := false, additionalContext := none } ∧
    executeHooks runW5 parseW5 cfgNoMatchW "PreToolUse" "generic" (some "ReadFile")
      = { shouldBlock := false, additionalContext := some "" } :=
  ⟨(no_matching_hooks_verdict runW5 parseW5 cfgEmptyW "PreToolUse" "generic" none
      (by decide)).1 (by decide),
   (no_matching_hooks_verdict runW5 parseW5 cfgNoMatchW "PreToolUse" "generic" (some "ReadFile")
      (by decide)).2 (by decide) (by decide)⟩

/-- Counterexample to claim C9 as stated: with zero configured rules the
verdict omits the additional-context field entirely, which differs from the
claimed verdict carrying the empty string. -/
theorem empty_config_verdict_cex :
    executeHooks runW5 parseW5 cfgEmptyW "Stop" "generic" none
      = { shouldBlock := false, additionalContext := none } ∧
    ({ shouldBlock := false, additionalContext := none } : HookVerdict)
      ≠ { shouldBlock := false, additionalContext := some "" } := by decide

/-- Claim C3 (amended): for a registered tool not blocked by the
before-tool verdict, whenever the underlying call resolves with a result -
success flag true or false alike - and the transcript writes succeed, the
PostToolUse event is dispatched with the tool's response in its payload,
after the tool_end record; the full effect sequence and the returned result
are exactly as listed. A call that raises an exception instead skips the
PostToolUse dispatch (see the counterexample theorem for claim C3). -/
theorem post_tool_use_on_normal_return (env : ToolEnv) (toolName : String) (r : ToolResult)
    (hreg : env.tools.contains toolName = true)
    (hlog0 : env.logOk 0 = true) (hlog1 : env.logOk 1 = true)
    (hnb : (executeHooks env.run env.parse env.cfg "PreToolUse" env.provider
      (some toolName)).shouldBlock = false)
    (hexec : env.toolExec = ToolExecOutcome.ok r) :
    runTool env toolName
      = ([Effect.logged (LogEntry.toolStart toolName), Effect.hookDispatch "PreToolUse" none,
          Effect.logged (LogEntry.toolEnd toolName r), Effect.hookDispatch "PostToolUse" (some r)],
         JsOutcome.ok r) := by
  have hmem : toolName ∈ env.tools := by simpa using hreg
  simp [runTool, hreg, hmem, hlog0, hlog1, hnb, hexec]

/-- A tool-runner environment whose underlying tool throws with message
boom; no hooks are configured, every transcript write succeeds. -/
def toolEnvC3 : ToolEnv :=
  { cfg := cfgEmptyW, provider := "generic", tools := ["T"],
    run := runW5, parse := parseW5,
    toolExec := ToolExecOutcome.thrown "boom",
    logOk := fun _ => true, fsErrMsg := "disk full" }

/-- Counterexample to claim C3 as stated: when the registered, unblocked
tool raises an exception, the catch path logs a tool_error record and
returns the failure result without any PostToolUse dispatch. -/
theorem post_tool_use_skipped_on_exception_cex :
    runTool toolEnvC3 "T"
      = ([Effect.logged (LogEntry.toolStart "T"), Effect.hookDispatch "PreToolUse" none,
          Effect.logged (LogEntry.toolError "T"
            { success := false, error := some "Error executing tool T: boom" })],
         JsOutcome.ok { success := false, error := some "Error executing tool T: boom" }) ∧
    countPostDispatch (runTool toolEnvC3 "T").1 = 0 := by decide

/-- The tool-runner environment of toolEnvC3 with a tool that resolves with
a failure-flagged result instead of throwing. -/
def toolEnvC3w : ToolEnv :=
  { cfg := cfgEmptyW, provider := "generic", tools := ["T"],
    run := runW5, parse := parseW5,
    toolExec := ToolExecOutcome.ok { success := false, error := some "not found" },
    logOk := fun _ => true, fsErrMsg := "disk full" }

/-- Witness for claim C3 (amended) at a concrete environment: a resolved
failure-flagged tool result still gets its PostToolUse dispatch carrying
that result. -/
theorem post_tool_use_on_normal_return_w :
    runTool toolEnvC3w "T"
      = ([Effect.logged (LogEntry.toolStart "T"), Effect.hookDispatch "PreToolUse" none,
          Effect.logged (LogEntry.toolEnd "T" { success := false, error := some "not found" }),
          Effect.hookDispatch "PostToolUse" (some { success := false, error := some "not found" })],
         JsOutcome.ok { success := false, error := some "not found" }) :=
  post_tool_use_on_normal_return toolEnvC3w "T" { success := false, error := some "not found" }
    (by decide) rfl rfl (by decide) rfl

/-- Claim C10: for a registered tool (and a succeeding tool_start append),
the tool_start record is appended before the PreToolUse dispatch - the
trace always begins with exactly those two effects - and when the
before-tool verdict blocks, the run terminates with exactly those two
effects and the fixed blocked-failure result: no tool_end or tool_error
record, and the blocking failure result itself is never logged. -/
theorem tool_start_before_pre_hook (env : ToolEnv) (toolName : String)
    (hreg : env.tools.contains toolName = true) (hlog : env.logOk 0 = true) :
    ((runTool env toolName).1.take 2
        = [Effect.logged (LogEntry.toolStart toolName), Effect.hookDispatch "PreToolUse" none]) ∧
    ((executeHooks env.run env.parse env.cfg "PreToolUse" env.provider
        (some toolName)).shouldBlock = true →
      runTool env toolName
        = ([Effect.logged (LogEntry.toolStart toolName), Effect.hookDispatch "PreToolUse" none],
           JsOutcome.ok { success := false,
                          error := some "Tool execution blocked by PreToolUse hook" })) := by
  have hmem : toolName ∈ env.tools := by simpa using hreg
  constructor
  · by_cases hb : (executeHooks env.run env.parse env.cfg "PreToolUse" env.provider
      (some toolName)).shouldBlock
    · simp [runTool, hreg, hmem, hlog, hb]
    · cases hexec : env.toolExec with
      | ok r =>
        by_cases hl1 : env.logOk 1
        · simp [runTool, hreg, hmem, hlog, hb, hexec, hl1]
        · by_cases hl2 : env.logOk 2
          · simp [runTool, toolCatch, hreg, hmem, hlog, hb, hexec, hl1, hl2]
          · simp [runTool, toolCatch, hreg, hmem, hlog, hb, hexec, hl1, hl2]
      | thrown m =>
        by_cases hl1 : env.logOk 1
        · simp [runTool, toolCatch, hreg, hmem, hlog, hb, hexec, hl1]
        · simp [runTool, toolCatch, hreg, hmem, hlog, hb, hexec, hl1]
  · intro hb
    simp [runTool, hreg, hmem, hlog, hb]

/-- A tool-runner environment whose generic PreToolUse hook exits with code
2, so every mediated call is blocked. -/
def toolEnvC10 : ToolEnv :=
  { cfg := cfgW5, provider := "generic", tools := ["ReadFile"],
    run := runW5, parse := parseW5,
    toolExec := ToolExecOutcome.ok { success := true, error := none },
    logOk := fun _ => true, fsErrMsg := "" }

/-- Witness for claim C10 at a concrete environment: the blocked invocation
leaves exactly the tool_start record and the PreToolUse dispatch, and
returns the fixed blocked-failure result. -/
theorem tool_start_before_pre_hook_w :
    ((runTool toolEnvC10 "ReadFile").1.take 2
        = [Effect.logged (LogEntry.toolStart "ReadFile"), Effect.hookDispatch "PreToolUse" none]) ∧
    (runTool toolEnvC10 "ReadFile"
      = ([Effect.logged (LogEntry.toolStart "ReadFile"), Effect.hookDispatch "PreToolUse" none],
         JsOutcome.ok { success := false,
                        error := some "Tool execution blocked by PreToolUse hook" })) :=
  ⟨(tool_start_before_pre_hook toolEnvC10 "ReadFile" (by decide) rfl).1,
   (tool_start_before_pre_hook toolEnvC10 "ReadFile" (by decide) rfl).2 (by decide)⟩

theorem getLast_append_pair (l : List Effect) (a b : Effect) :
    (l ++ [a, b]).getLast? = some b := by
  rw [show l ++ [a, b] = (l ++ [a]) ++ [b] from by simp, List.getLast?_concat]

/-- The catch block with a succeeding error-record append: one failure
metric, the error record, and the generic failure result as pending
completion. -/
theorem catchBlock_ok (env : RunEnv) (id : String) (k : Nat) (tr : List Effect)
    (h : env.logOk k = true) :
    catchBlock env id k tr
      = (k + 1,
         tr ++ [Effect.metricRecorded
                  { agent_id := id, timestamp := env.nowStr, tokens_used := 0, cost := 0,
                    result := "failure", duration_ms := env.durMs },
                Effect.logged (LogEntry.errorEntry (execFailedResult id env.nowStr))],
         JsOutcome.ok (execFailedResult id env.nowStr)) := by
  simp [catchBlock, h]

/-- With every transcript append succeeding, the try block always completes
with a pending ok result, appending effects that contain no Stop dispatch
and no stop record. -/
theorem tryBlock_ok (env : RunEnv) (id : String) (k : Nat) (tr : List Effect)
    (hl : ∀ n, env.logOk n = true) :
    ∃ (k2 : Nat) (Δ : List Effect) (r : AgentResult),
      tryBlock env id k tr = (k2, tr ++ Δ, JsOutcome.ok r) ∧ countStopDispatch Δ = 0 := by
  cases hexec : env.agentExec with
  | thrown =>
    rw [tryBlock, hexec, catchBlock_ok env id k tr (hl k)]
    refine ⟨k + 1, _, execFailedResult id env.nowStr, rfl, ?_⟩
    simp [countStopDispatch]
  | ok result =>
    rw [tryBlock, hexec]
    simp only [hl k, if_true]
    refine ⟨k + 1,
      [Effect.metricRecorded
        { agent_id := id, timestamp := result.timestamp,
          tokens_used := (result.tokens_used).getD 0, cost := (result.cost).getD 0,
          result := result.status, duration_ms := env.durMs },
       Effect.logged (LogEntry.result result)], result, ?_, ?_⟩
    · simp
    · simp [countStopDispatch]

/-- The finally block with a succeeding stop-record append: the Stop
dispatch and the stop record are appended, the pending completion is kept. -/
theorem finallyBlock_ok (env : RunEnv) (k : Nat) (tr : List Effect)
    (pending : JsOutcome AgentResult) (h : env.logOk k = true) :
    finallyBlock env k tr pending
      = (tr ++ [Effect.hookDispatch "Stop" none, Effect.logged LogEntry.stop], pending) := by
  simp [finallyBlock, h]

/-- When the budget gate allows the run and every append succeeds,
afterStart runs the try/catch/finally: the trace gains effects without Stop
dispatches, then exactly one Stop dispatch followed by the final stop
record, and the outcome is an ok result. -/
theorem afterStart_ok (env : RunEnv) (id : String) (k : Nat) (tr : List Effect)
    (hl : ∀ n, env.logOk n = true)
    (hb : sumTokens (getMetrics env.parseDate env.nowMs env.storedFiles "daily")
      < dailyCeiling env.cfg) :
    ∃ (Δ : List Effect) (r : AgentResult),
      afterStart env id k tr
        = ((tr ++ Δ) ++ [Effect.hookDispatch "Stop" none, Effect.logged LogEntry.stop],
           JsOutcome.ok r)
      ∧ countStopDispatch Δ = 0 := by
  obtain ⟨k2, Δ, r, htry, hcount⟩ := tryBlock_ok env id k tr hl
  refine ⟨Δ, r, ?_, hcount⟩
  simp only [afterStart]
  rw [if_neg (Nat.not_le.mpr hb), htry, finallyBlock_ok env k2 (tr ++ Δ) (JsOutcome.ok r) (hl k2)]

/-- When the budget gate denies the run, afterStart returns the skipped
result directly: no further effect, in particular no metric record and no
Stop dispatch. -/
theorem afterStart_skip (env : RunEnv) (id : String) (k : Nat) (tr : List Effect)
    (hb : dailyCeiling env.cfg
      ≤ sumTokens (getMetrics env.parseDate env.nowMs env.storedFiles "daily")) :
    afterStart env id k tr = (tr, JsOutcome.ok (skippedResult id env.nowStr)) := by
  simp only [afterStart]
  rw [if_pos hb]

/-- With a registered agent and succeeding appends, runAgent reaches
afterStart with a two- or three-record trace holding no Stop dispatch and
no metric record. -/
theorem runAgent_reaches_afterStart (env : RunEnv) (id : String) (agent : AgentSpec)
    (hag : env.agents.lookup id = some agent) (hl : ∀ n, env.logOk n = true) :
    ∃ (k : Nat) (tr : List Effect),
      runAgent env id = afterStart env id k tr
      ∧ countStopDispatch tr = 0 ∧ countMetricRecords tr = 0 := by
  simp only [runAgent, hag, hl 0]
  by_cases hctx :
    ((executeHooks env.run env.parse env.cfg "SessionStart"
      (getProviderFromModel agent.model) none).additionalContext).getD "" = ""
  · refine ⟨1, [Effect.logged (LogEntry.start id), Effect.hookDispatch "SessionStart" none],
      ?_, ?_, ?_⟩
    · simp [hctx]
    · simp [countStopDispatch]
    · simp [countMetricRecords]
  · refine ⟨2, [Effect.logged (LogEntry.start id), Effect.hookDispatch "SessionStart" none,
      Effect.logged (LogEntry.contextEntry
        ((executeHooks env.run env.parse env.cfg "SessionStart"
          (getProviderFromModel agent.model) none).additionalContext.getD ""))],
      ?_, ?_, ?_⟩
    · simp [hctx, hl 1]
    · simp [countStopDispatch]
    · simp [countMetricRecords]

/-- Claim C1 (amended): for every run whose agent id resolves, whose
transcript appends succeed, and which passes the budget gate, the Stop
hooks are dispatched exactly once and the final stop record is the last
transcript effect, whatever the execute outcome (normal return of any
status, or an uncaught exception), and runAgent returns a result. A
budget-gate skip, by contrast, returns before the cleanup path: it
dispatches no Stop hooks and appends no final record (see the
counterexample theorem for claim C1). -/
theorem stop_hooks_once_on_executed_runs (env : RunEnv) (id : String) (agent : AgentSpec)
    (hag : env.agents.lookup id = some agent)
    (hl : ∀ n, env.logOk n = true)
    (hb : sumTokens (getMetrics env.parseDate env.nowMs env.storedFiles "daily")
      < dailyCeiling env.cfg) :
    countStopDispatch (runAgent env id).1 = 1 ∧
    (runAgent env id).1.getLast? = some (Effect.logged LogEntry.stop) ∧
    ∃ r, (runAgent env id).2 = JsOutcome.ok r := by
  obtain ⟨k, tr, heq, hstop, _⟩ := runAgent_reaches_afterStart env id agent hag hl
  obtain ⟨Δ, r, hafter, hΔ⟩ := afterStart_ok env id k tr hl hb
  rw [heq, hafter]
  refine ⟨?_, ?_, r, rfl⟩
  · simp only [countStopDispatch] at hstop hΔ ⊢
    simp [List.countP_append, hstop, hΔ]
  · exact getLast_append_pair (tr ++ Δ) _ _

/-- A metric worth 150 tokens stored in the per-day metrics file. -/
def metricC1 : Metric :=
  { agent_id := "a", timestamp := "2026-01-01T00:00:00.000Z", tokens_used := 150, cost := 0,
    result := "success", duration_ms := 5 }

/-- A run environment with a 100-token daily ceiling and 150 tokens already
used today, a registered agent and succeeding transcript appends. -/
def envC1 : RunEnv :=
  { cfg := { budgets := some { daily_tokens := some 100 }, hooks := none },
    agents := [("a", { model := "gpt-4o" })],
    run := runW5, parse := parseW5,
    storedFiles := [("2026-01-01.json", [metricC1])],
    parseDate := fun _ => 0, nowMs := 0,
    logOk := fun _ => true,
    agentExec := JsOutcome.ok
      { agent_id := "a", status := "success", error := none, tokens_used := some 10,
        cost := some 0, timestamp := "t1" },
    nowStr := "t0", durMs := 7 }

/-- Counterexample to claim C1 as stated: a budget-gate skip opens the
session (the agent id resolves, the start record and SessionStart dispatch
happen) yet terminates with zero Stop dispatches and no final stop
record. -/
theorem budget_skip_no_stop_hook_cex :
    (runAgent envC1 "a").2 = JsOutcome.ok (skippedResult "a" "t0") ∧
    countStopDispatch (runAgent envC1 "a").1 = 0 ∧
    (runAgent envC1 "a").1
      = [Effect.logged (LogEntry.start "a"), Effect.hookDispatch "SessionStart" none] := by decide

/-- A run environment passing the budget gate whose agent throws during
execute. -/
def envW1 : RunEnv :=
  { cfg := cfgEmptyW,
    agents := [("a", { model := "gpt-4o" })],
    run := runW5, parse := parseW5,
    storedFiles := [], parseDate := fun _ => 0, nowMs := 0,
    logOk := fun _ => true,
    agentExec := JsOutcome.thrown,
    nowStr := "t0", durMs := 7 }

/-- Witness for claim C1 (amended) at a concrete environment whose agent
throws during execute: the Stop hooks are still dispatched exactly once,
the stop record closes the trace, and a (failure) result is returned. -/
theorem stop_hooks_once_on_executed_runs_w :
    countStopDispatch (runAgent envW1 "a").1 = 1 ∧
    (runAgent envW1 "a").1.getLast? = some (Effect.logged LogEntry.stop) ∧
    ∃ r, (runAgent envW1 "a").2 = JsOutcome.ok r :=
  stop_hooks_once_on_executed_runs envW1 "a" { model := "gpt-4o" }
    (by decide) (fun _ => rfl) (by decide)

/-- Claim C2 (amended): when the trailing-24-hour token sum reaches the
configured daily ceiling, runAgent returns the skipped result with the
fixed budget-exhaustion reason - but no metric at all is recorded for the
skipped run (the claimed single zero-usage metric is not written). -/
theorem budget_skip_result_and_no_metric (env : RunEnv) (id : String) (agent : AgentSpec)
    (hag : env.agents.lookup id = some agent)
    (hl : ∀ n, env.logOk n = true)
    (hb : dailyCeiling env.cfg
      ≤ sumTokens (getMetrics env.parseDate env.nowMs env.storedFiles "daily")) :
    (runAgent env id).2 = JsOutcome.ok (skippedResult id env.nowStr) ∧
    countMetricRecords (runAgent env id).1 = 0 := by
  obtain ⟨k, tr, heq, _, hmet⟩ := runAgent_reaches_afterStart env id agent hag hl
  rw [heq, afterStart_skip env id k tr hb]
  exact ⟨rfl, hmet⟩

/-- Counterexample to claim C2 as stated: the budget-gate skip records zero
metrics, not the claimed single zero-usage metric. -/
theorem budget_skip_records_no_metric_cex :
    (runAgent envC1 "a").2
      = JsOutcome.ok
          { agent_id := "a", status := "skipped",
            error := some "Daily token budget exhausted",
            tokens_used := none, cost := none, timestamp := "t0" } ∧
    countMetricRecords (runAgent envC1 "a").1 = 0 := by decide

/-- Witness for claim C2 (amended) at the concrete 100-token-ceiling,
150-token-history environment. -/
theorem budget_skip_result_and_no_metric_w :
    (runAgent envC1 "a").2 = JsOutcome.ok (skippedResult "a" "t0") ∧
    countMetricRecords (runAgent envC1 "a").1 = 0 :=
  budget_skip_result_and_no_metric envC1 "a" { model := "gpt-4o" }
    (by decide) (fun _ => rfl) (by decide)

/-- Claim C4 (amended): a transcript-write failure is propagated, not
swallowed: with a registered agent, when the very first append (the start
record) fails, runAgent throws - it terminates with no AgentResult and an
empty effect trace. -/
theorem transcript_failure_propagates (env : RunEnv) (id : String) (agent : AgentSpec)
    (hag : env.agents.lookup id = some agent)
    (hlog : env.logOk 0 = false) :
    runAgent env id = ([], JsOutcome.thrown) := by
  simp [runAgent, hag, hlog]

/-- The environment of envW1 with every transcript append failing. -/
def envC4 : RunEnv :=
  { cfg := cfgEmptyW,
    agents := [("a", { model := "gpt-4o" })],
    run := runW5, parse := parseW5,
    storedFiles := [], parseDate := fun _ => 0, nowMs := 0,
    logOk := fun _ => false,
    agentExec := JsOutcome.ok
      { agent_id := "a", status := "success", error := none, tokens_used := some 1,
        cost := some 0, timestamp := "t1" },
    nowStr := "t0", durMs := 7 }

/-- Counterexample to claim C4 as stated: when the transcript append fails,
the run does not continue and no AgentResult is returned - runAgent throws
with an empty trace. -/
theorem transcript_failure_throws_cex :
    runAgent envC4 "a" = ([], JsOutcome.thrown) := by decide

/-- A second all-appends-failing environment, with a claude-family model. -/
def envC4w : RunEnv :=
  { cfg := cfgEmptyW,
    agents := [("b", { model := "claude-3-opus" })],
    run := runW5, parse := parseW5,
    storedFiles := [], parseDate := fun _ => 0, nowMs := 0,
    logOk := fun _ => false,
    agentExec := JsOutcome.thrown,
    nowStr := "t9", durMs := 1 }

/-- Witness for claim C4 (amended) at a concrete environment. -/
theorem transcript_failure_propagates_w :
    runAgent envC4w "b" = ([], JsOutcome.thrown) :=
  transcript_failure_propagates envC4w "b" { model := "claude-3-opus" } (by decide) rfl

end VerifierTS
